import Mathlib

/-!
Shallow embedding of the HCI layer command/event dispatch engine from
system/gd/hci/hci_layer.cc (struct HciLayer::impl and the free functions
around it).

Modelling conventions:
* The packet codec is external to this repository.  A command builder is
  represented by the opcode that serializing it and re-parsing the bytes
  with CommandPacketView recovers (the round-trip property of the codec);
  command-status and command-complete views are represented by the two
  fields the engine reads from them (GetNumHciCommandPackets and
  GetCommandOpCode).
* uint8_t command_credits_ is a Nat; a store into it reduces mod 2^8.
* ASSERT / ASSERT_LOG failures abort the process; handlers that can abort
  return Option, with none standing for the fatal abort.
* One-shot sinks are identified by a numeric id; invoking a sink is
  recorded in an observable trace together with the two fields of the view
  it was handed.  Bytes handed to hal_->sendHciCommand are recorded as the
  opcode of the serialized command.
* The alarm is the pair (opcode bound by BindOnce into on_hci_timeout,
  scheduled duration), or none when not armed.
-/

namespace Hci

/-- HCI opcodes are 16-bit identifiers; OpCode::NONE is the 0x0000 sentinel. -/
abbrev OpCode := Nat

/-- Sentinel opcode used by the engine for the no-outstanding-command state. -/
def OpCode.NONE : OpCode := 0

/-- Modelled from the spec: kHciTimeoutMs, the command watchdog duration
(default 2000 ms), a constant defined in a header outside src/. -/
def kHciTimeoutMs : Nat := 2000

/-- A command builder, represented by the opcode that the codec recovers
from its serialized bytes (CommandPacketView::Create then GetOpCode). -/
structure CommandPacketBuilder where
  op : OpCode
deriving DecidableEq

/-- Mirror of class CommandQueueEntry: an owned command builder, the
waiting_for_status_ flag, and the identity of the one-shot sink stored in
on_status (flag true) or on_complete (flag false). -/
structure CommandQueueEntry where
  command : CommandPacketBuilder
  waiting_for_status : Bool
  sinkId : Nat
deriving DecidableEq

/-- The fields of a CommandStatusView that the engine reads. -/
structure CommandStatusView where
  numHciCommandPackets : Nat
  commandOpCode : OpCode
deriving DecidableEq

/-- The fields of a CommandCompleteView that the engine reads. -/
structure CommandCompleteView where
  numHciCommandPackets : Nat
  commandOpCode : OpCode
deriving DecidableEq

/-- Record of one sink invocation: which sink fired and the two fields of
the parsed view it received. -/
structure SinkCall where
  sinkId : Nat
  viewOpCode : OpCode
  viewNumPackets : Nat
deriving DecidableEq

/-- The command-engine state of HciLayer::impl, together with the
observable traces of HAL sends and sink invocations. -/
structure EngineState where
  command_queue : List CommandQueueEntry
  waiting_command : OpCode
  command_credits : Nat
  hci_timeout_alarm : Option (OpCode × Nat)
  sent : List OpCode
  invoked : List SinkCall
deriving DecidableEq

/-- Mirror of HciLayer::impl::send_next_command: return early unless
credits are positive, no command is outstanding and the queue is
non-empty; otherwise serialize the head, hand the bytes to the HAL,
re-parse them for the opcode, mark it outstanding, clamp credits to 0 and
arm the timeout alarm.  The head entry is not popped. -/
def send_next_command (s : EngineState) : EngineState :=
  if s.command_credits = 0 then s
  else if s.waiting_command ≠ OpCode.NONE then s
  else
    match s.command_queue with
    | [] => s
    | entry :: _ =>
      { s with
        sent := s.sent ++ [entry.command.op]
        waiting_command := entry.command.op
        command_credits := 0
        hci_timeout_alarm := some (entry.command.op, kHciTimeoutMs) }

/-- Mirror of HciLayer::impl::on_command_status.  Credits are written from
the view before the opcode test; opcode NONE re-enters send scheduling
without touching the queue; otherwise the three ASSERT_LOG checks (queue
non-empty, outstanding opcode matches, head expects a status) abort on
failure, else the status sink fires, the head is popped, the outstanding
opcode is cleared, the alarm is cancelled and scheduling re-enters. -/
def on_command_status (event : CommandStatusView) (s : EngineState) :
    Option EngineState :=
  let s1 := { s with command_credits := event.numHciCommandPackets % 2 ^ 8 }
  if event.commandOpCode = OpCode.NONE then
    some (send_next_command s1)
  else
    match s1.command_queue with
    | [] => none
    | entry :: rest =>
      if s1.waiting_command ≠ event.commandOpCode then none
      else if entry.waiting_for_status = false then none
      else
        some (send_next_command
          { s1 with
            invoked := s1.invoked ++
              [⟨entry.sinkId, event.commandOpCode, event.numHciCommandPackets⟩]
            command_queue := rest
            waiting_command := OpCode.NONE
            hci_timeout_alarm := none })

/-- Mirror of HciLayer::impl::on_command_complete: identical to the status
path except that the head must not expect a status and the completion sink
fires. -/
def on_command_complete (event : CommandCompleteView) (s : EngineState) :
    Option EngineState :=
  let s1 := { s with command_credits := event.numHciCommandPackets % 2 ^ 8 }
  if event.commandOpCode = OpCode.NONE then
    some (send_next_command s1)
  else
    match s1.command_queue with
    | [] => none
    | entry :: rest =>
      if s1.waiting_command ≠ event.commandOpCode then none
      else if entry.waiting_for_status = true then none
      else
        some (send_next_command
          { s1 with
            invoked := s1.invoked ++
              [⟨entry.sinkId, event.commandOpCode, event.numHciCommandPackets⟩]
            command_queue := rest
            waiting_command := OpCode.NONE
            hci_timeout_alarm := none })

/-- Mirror of HciLayer::impl::handle_enqueue_command_with_complete:
append an entry flagged for completion, then attempt to send. -/
def handle_enqueue_command_with_complete (command : CommandPacketBuilder)
    (sinkId : Nat) (s : EngineState) : EngineState :=
  send_next_command
    { s with command_queue := s.command_queue ++ [⟨command, false, sinkId⟩] }

/-- Mirror of HciLayer::impl::handle_enqueue_command_with_status:
append an entry flagged for status, then attempt to send. -/
def handle_enqueue_command_with_status (command : CommandPacketBuilder)
    (sinkId : Nat) (s : EngineState) : EngineState :=
  send_next_command
    { s with command_queue := s.command_queue ++ [⟨command, true, sinkId⟩] }

/-- Outcome of the timeout handler.  The only constructor is the fatal
abort carrying the opcode written into the fatal log. -/
inductive TimeoutResult where
  | fatal (loggedOpCode : OpCode)
deriving DecidableEq

/-- Mirror of the free function on_hci_timeout: an unconditional
ASSERT_LOG(false, ...) naming the stalled opcode; there is no recovery
path. -/
def on_hci_timeout (op_code : OpCode) : TimeoutResult :=
  TimeoutResult.fatal op_code

/-- Firing the armed alarm runs on_hci_timeout on the opcode bound into it
at scheduling time; an unarmed alarm cannot fire. -/
def fire_alarm (s : EngineState) : Option TimeoutResult :=
  s.hci_timeout_alarm.map (fun a => on_hci_timeout a.1)

/-- Initial engine state of a fresh HciLayer::impl: empty queue, no
outstanding command, one credit reserved for the startup Reset, alarm not
armed. -/
def initState : EngineState :=
  { command_queue := []
    waiting_command := OpCode.NONE
    command_credits := 1
    hci_timeout_alarm := none
    sent := []
    invoked := [] }

/-! Event router: the two handler maps of HciLayer::impl and the dispatch
functions on_hci_event and on_le_meta_event. -/

/-- HCI event codes are 8-bit identifiers. -/
abbrev EventCode := Nat

/-- LE meta-event subevent codes are 8-bit identifiers. -/
abbrev SubeventCode := Nat

/-- Numeric event-code values from the Bluetooth Core Specification (the
enum lives in the packet definitions outside src/); the model only needs
these six to be pairwise distinct. -/
def EventCode.COMMAND_COMPLETE : EventCode := 0x0E

/-- Bluetooth Core Specification value of the COMMAND_STATUS event code. -/
def EventCode.COMMAND_STATUS : EventCode := 0x0F

/-- Bluetooth Core Specification value of the LE_META_EVENT event code. -/
def EventCode.LE_META_EVENT : EventCode := 0x3E

/-- Bluetooth Core Specification value of PAGE_SCAN_REPETITION_MODE_CHANGE. -/
def EventCode.PAGE_SCAN_REPETITION_MODE_CHANGE : EventCode := 0x20

/-- Bluetooth Core Specification value of the MAX_SLOTS_CHANGE event code. -/
def EventCode.MAX_SLOTS_CHANGE : EventCode := 0x1B

/-- Bluetooth Core Specification value of the VENDOR_SPECIFIC event code. -/
def EventCode.VENDOR_SPECIFIC : EventCode := 0xFF

/-- An inbound event view: the event code, plus the first parameter byte
that re-parsing as an LE meta view would expose as the subevent code. -/
structure EventPacketView where
  eventCode : EventCode
  subeventCode : SubeventCode
deriving DecidableEq

/-- An LE meta-event view exposes the subevent code. -/
structure LeMetaEventView where
  subeventCode : SubeventCode
deriving DecidableEq

/-- Mirror of LeMetaEventView::Create re-parsing an event packet. -/
def LeMetaEventView.Create (event : EventPacketView) : LeMetaEventView :=
  ⟨event.subeventCode⟩

/-- Values stored in event_handlers_: the three engine-internal bindings
registered at Start, the no-op drop binding, or an external callback
identified by a number. -/
inductive EvHandler where
  | onCommandComplete
  | onCommandStatus
  | onLeMetaEvent
  | dropHandler
  | ext (id : Nat)
deriving DecidableEq

/-- Lookup in a std::map modelled as an association list without duplicate
keys (the registration guard maintains that discipline). -/
def mapFind {α : Type} : List (Nat × α) → Nat → Option α
  | [], _ => none
  | (k, v) :: rest, code => if k = code then some v else mapFind rest code

/-- Erase of the entry a successful find returned. -/
def mapErase {α : Type} : List (Nat × α) → Nat → List (Nat × α)
  | [], _ => []
  | (k, v) :: rest, code => if k = code then rest else (k, v) :: mapErase rest code

/-- Outcome of dispatching one inbound event. -/
inductive DispatchOutcome where
  | engineComplete
  | engineStatus
  | dropped
  | invokedExt (id : Nat) (event : EventPacketView)
  | invokedLeExt (id : Nat) (meta : LeMetaEventView)
  | droppedDebug (code : EventCode)
  | fatalLeUnhandled (sub : SubeventCode)
deriving DecidableEq

/-- Mirror of HciLayer::impl::on_le_meta_event: re-parse the event as an
LE meta view, then ASSERT_LOG that a subevent handler is registered
(missing handler is the fatal fatalLeUnhandled outcome) and invoke it with
the meta view. -/
def on_le_meta_event (subevent_handlers : List (SubeventCode × Nat))
    (event : EventPacketView) : DispatchOutcome :=
  let meta := LeMetaEventView.Create event
  match mapFind subevent_handlers meta.subeventCode with
  | none => DispatchOutcome.fatalLeUnhandled meta.subeventCode
  | some h => DispatchOutcome.invokedLeExt h meta

/-- Invoking the handler value found in event_handlers_. The engine
bindings registered at Start steer to the corresponding impl member
function; the drop binding does nothing; an external callback receives the
event view. -/
def invokeHandler (subevent_handlers : List (SubeventCode × Nat))
    (h : EvHandler) (event : EventPacketView) : DispatchOutcome :=
  match h with
  | EvHandler.onCommandComplete => DispatchOutcome.engineComplete
  | EvHandler.onCommandStatus => DispatchOutcome.engineStatus
  | EvHandler.onLeMetaEvent => on_le_meta_event subevent_handlers event
  | EvHandler.dropHandler => DispatchOutcome.dropped
  | EvHandler.ext i => DispatchOutcome.invokedExt i event

/-- Mirror of HciLayer::impl::on_hci_event: look the event code up in
event_handlers_; if absent, LOG_DEBUG and drop (droppedDebug, not fatal),
else invoke the registered handler. -/
def on_hci_event (event_handlers : List (EventCode × EvHandler))
    (subevent_handlers : List (SubeventCode × Nat))
    (event : EventPacketView) : DispatchOutcome :=
  match mapFind event_handlers event.eventCode with
  | none => DispatchOutcome.droppedDebug event.eventCode
  | some h => invokeHandler subevent_handlers h event

/-- Mirror of HciLayer::impl::handle_register_event_handler: ASSERT_LOG
that no handler is registered for the code (second registration is the
fatal none), then store the handler. -/
def handle_register_event_handler (event_handlers : List (EventCode × EvHandler))
    (event_code : EventCode) (event_handler : EvHandler) :
    Option (List (EventCode × EvHandler)) :=
  match mapFind event_handlers event_code with
  | some _ => none
  | none => some ((event_code, event_handler) :: event_handlers)

/-- Mirror of HciLayer::impl::handle_unregister_event_handler: erase the
iterator returned by find; when find returns end (no registration) the
erase is a fatal crash, modelled as none. -/
def handle_unregister_event_handler (event_handlers : List (EventCode × EvHandler))
    (event_code : EventCode) : Option (List (EventCode × EvHandler)) :=
  match mapFind event_handlers event_code with
  | none => none
  | some _ => some (mapErase event_handlers event_code)

/-- Mirror of HciLayer::impl::handle_register_le_event_handler (LE
subevent handlers are external callbacks, identified by a number). -/
def handle_register_le_event_handler (subevent_handlers : List (SubeventCode × Nat))
    (subevent_code : SubeventCode) (subevent_handler : Nat) :
    Option (List (SubeventCode × Nat)) :=
  match mapFind subevent_handlers subevent_code with
  | some _ => none
  | none => some ((subevent_code, subevent_handler) :: subevent_handlers)

/-- Mirror of HciLayer::impl::handle_unregister_le_event_handler. -/
def handle_unregister_le_event_handler (subevent_handlers : List (SubeventCode × Nat))
    (subevent_code : SubeventCode) : Option (List (SubeventCode × Nat)) :=
  match mapFind subevent_handlers subevent_code with
  | none => none
  | some _ => some (mapErase subevent_handlers subevent_code)

/-- The event_handlers_ registrations performed by HciLayer::Start. -/
def startEventHandlers : List (EventCode × EvHandler) :=
  [(EventCode.VENDOR_SPECIFIC, EvHandler.dropHandler),
   (EventCode.MAX_SLOTS_CHANGE, EvHandler.dropHandler),
   (EventCode.PAGE_SCAN_REPETITION_MODE_CHANGE, EvHandler.dropHandler),
   (EventCode.LE_META_EVENT, EvHandler.onLeMetaEvent),
   (EventCode.COMMAND_STATUS, EvHandler.onCommandStatus),
   (EventCode.COMMAND_COMPLETE, EvHandler.onCommandComplete)]

/-- The loop body of the facade getters that register general event
handlers: RegisterEventHandler for each code in the event table of the facade,
in order; a double registration anywhere is fatal. -/
def registerEventsWith (event_handlers : List (EventCode × EvHandler)) :
    List EventCode → EvHandler → Option (List (EventCode × EvHandler))
  | [], _ => some event_handlers
  | e :: rest, h =>
    match handle_register_event_handler event_handlers e h with
    | none => none
    | some t => registerEventsWith t rest h

/-- The loop body of the facade getters that register LE subevent
handlers. -/
def registerLeEventsWith (subevent_handlers : List (SubeventCode × Nat)) :
    List SubeventCode → Nat → Option (List (SubeventCode × Nat))
  | [], _ => some subevent_handlers
  | e :: rest, h =>
    match handle_register_le_event_handler subevent_handlers e h with
    | none => none
    | some t => registerLeEventsWith t rest h

/-- Mirror of HciLayer::GetAclConnectionInterface: registers event_handler
for each code of the AclConnectionEvents table (an external static table,
passed here as a parameter) and returns the interface.  The on_disconnect
argument appears in the signature but is never read. -/
def GetAclConnectionInterface {D : Type}
    (event_handlers : List (EventCode × EvHandler))
    (aclConnectionEvents : List EventCode)
    (event_handler : EvHandler) (on_disconnect : D) :
    Option (List (EventCode × EvHandler)) :=
  registerEventsWith event_handlers aclConnectionEvents event_handler

/-- Mirror of HciLayer::GetLeAclConnectionInterface: registers
event_handler for each subevent of the LeConnectionManagementEvents table;
on_disconnect appears in the signature but is never read. -/
def GetLeAclConnectionInterface {D : Type}
    (subevent_handlers : List (SubeventCode × Nat))
    (leConnectionManagementEvents : List SubeventCode)
    (event_handler : Nat) (on_disconnect : D) :
    Option (List (SubeventCode × Nat)) :=
  registerLeEventsWith subevent_handlers leConnectionManagementEvents event_handler

/-! Traces of handler-posted engine operations, for whole-run properties. -/

/-- One task posted to the engine handler: an enqueue from a caller or an
inbound command response from the HAL. -/
inductive EngineAction where
  | enqueueComplete (command : CommandPacketBuilder) (sinkId : Nat)
  | enqueueStatus (command : CommandPacketBuilder) (sinkId : Nat)
  | statusEvent (event : CommandStatusView)
  | completeEvent (event : CommandCompleteView)
deriving DecidableEq

/-- Running one engine task; none is a fatal abort. -/
def engineStep (s : EngineState) : EngineAction → Option EngineState
  | EngineAction.enqueueComplete c k => some (handle_enqueue_command_with_complete c k s)
  | EngineAction.enqueueStatus c k => some (handle_enqueue_command_with_status c k s)
  | EngineAction.statusEvent ev => on_command_status ev s
  | EngineAction.completeEvent ev => on_command_complete ev s

/-- Running a sequence of engine tasks in order. -/
def engineRun (s : EngineState) : List EngineAction → Option EngineState
  | [] => some s
  | a :: rest =>
    match engineStep s a with
    | none => none
    | some s1 => engineRun s1 rest

/-- The queue entries created by the enqueue actions of a trace, in
submission order. -/
def enqueuedOf : List EngineAction → List CommandQueueEntry
  | [] => []
  | EngineAction.enqueueComplete c k :: rest => ⟨c, false, k⟩ :: enqueuedOf rest
  | EngineAction.enqueueStatus c k :: rest => ⟨c, true, k⟩ :: enqueuedOf rest
  | EngineAction.statusEvent _ :: rest => enqueuedOf rest
  | EngineAction.completeEvent _ :: rest => enqueuedOf rest

/-! Helper lemmas about send_next_command. -/

theorem send_next_command_of_no_credits {s : EngineState}
    (h : s.command_credits = 0) : send_next_command s = s := by
  simp [send_next_command, h]

theorem send_next_command_of_waiting {s : EngineState}
    (h : s.waiting_command ≠ OpCode.NONE) : send_next_command s = s := by
  simp [send_next_command, h]

theorem send_next_command_of_empty {s : EngineState}
    (h : s.command_queue = []) : send_next_command s = s := by
  simp [send_next_command, h]

theorem send_next_command_sends {s : EngineState} {entry : CommandQueueEntry}
    {rest : List CommandQueueEntry}
    (hc : s.command_credits ≠ 0) (hw : s.waiting_command = OpCode.NONE)
    (hq : s.command_queue = entry :: rest) :
    send_next_command s =
      { s with
        sent := s.sent ++ [entry.command.op]
        waiting_command := entry.command.op
        command_credits := 0
        hci_timeout_alarm := some (entry.command.op, kHciTimeoutMs) } := by
  simp [send_next_command, hc, hw, hq]

theorem send_next_command_cases (s : EngineState) :
    send_next_command s = s ∨
      ∃ entry rest, s.command_credits ≠ 0 ∧ s.waiting_command = OpCode.NONE ∧
        s.command_queue = entry :: rest ∧
        send_next_command s =
          { s with
            sent := s.sent ++ [entry.command.op]
            waiting_command := entry.command.op
            command_credits := 0
            hci_timeout_alarm := some (entry.command.op, kHciTimeoutMs) } := by
  by_cases hc : s.command_credits = 0
  · exact Or.inl (send_next_command_of_no_credits hc)
  by_cases hw : s.waiting_command = OpCode.NONE
  · cases hql : s.command_queue with
    | nil => exact Or.inl (send_next_command_of_empty hql)
    | cons entry rest =>
      have hsend := send_next_command_sends hc hw hql
      exact Or.inr ⟨entry, rest, hc, hw, rfl, by rw [hsend, hql]⟩
  · exact Or.inl (send_next_command_of_waiting hw)

/-! The inductive invariant relating an engine state to the list of
entries enqueued so far: the sinks invoked are those of a prefix of the
enqueued entries, the queue is the matching suffix, the opcodes sent are
those of a (possibly one longer) prefix, and a command is outstanding
exactly when one more send than invocations has happened. -/

structure EngineInv (s : EngineState) (E : List CommandQueueEntry) : Prop where
  inv_invoked : s.invoked.map SinkCall.sinkId =
    (E.take s.invoked.length).map CommandQueueEntry.sinkId
  inv_queue : s.command_queue = E.drop s.invoked.length
  inv_sent : s.sent = (E.take s.sent.length).map (fun e => e.command.op)
  inv_count : s.sent.length =
    if s.waiting_command = OpCode.NONE then s.invoked.length
    else s.invoked.length + 1

theorem EngineInv.invoked_le {s : EngineState} {E : List CommandQueueEntry}
    (h : EngineInv s E) : s.invoked.length ≤ E.length := by
  have hlen := congrArg List.length h.inv_invoked
  simp [List.length_take] at hlen
  omega

theorem EngineInv.sent_le {s : EngineState} {E : List CommandQueueEntry}
    (h : EngineInv s E) : s.sent.length ≤ E.length := by
  have hlen := congrArg List.length h.inv_sent
  simp [List.length_take] at hlen
  omega

/-- Real HCI opcodes are nonzero, so no enqueued command carries the
OpCode::NONE sentinel. -/
def OpsNonNone (E : List CommandQueueEntry) : Prop :=
  ∀ e ∈ E, e.command.op ≠ OpCode.NONE

theorem engineInv_send_next_command {s : EngineState} {E : List CommandQueueEntry}
    (h : EngineInv s E) (hops : OpsNonNone E) :
    EngineInv (send_next_command s) E := by
  rcases send_next_command_cases s with heq | ⟨entry, rest, hc, hw, hq, heq⟩
  · rw [heq]; exact h
  · rw [heq]
    have hcount : s.sent.length = s.invoked.length := by
      have hcc := h.inv_count
      rw [if_pos hw] at hcc
      exact hcc
    have hdropq : E.drop s.invoked.length = entry :: rest := by
      rw [← h.inv_queue]; exact hq
    have hget : E[s.invoked.length]? = some entry := by
      have h0 : (E.drop s.invoked.length)[0]? = some entry := by rw [hdropq]; simp
      rw [List.getElem?_drop] at h0
      simpa using h0
    have hmem : entry ∈ E := List.getElem?_mem hget
    have hsent : s.sent = (E.take s.invoked.length).map (fun e => e.command.op) := by
      have hs := h.inv_sent
      rw [hcount] at hs
      exact hs
    refine ⟨h.inv_invoked, h.inv_queue, ?_, ?_⟩
    · show s.sent ++ [entry.command.op] =
        (E.take (s.sent ++ [entry.command.op]).length).map (fun e => e.command.op)
      have hlen : (s.sent ++ [entry.command.op]).length = s.invoked.length + 1 := by
        simp [hcount]
      rw [hlen, List.take_succ, hget, hsent]
      simp
    · show (s.sent ++ [entry.command.op]).length =
        if entry.command.op = OpCode.NONE then s.invoked.length
        else s.invoked.length + 1
      have hne := hops entry hmem
      simp [hne, hcount]

theorem engineInv_append {s : EngineState} {E : List CommandQueueEntry}
    (e0 : CommandQueueEntry) (h : EngineInv s E) :
    EngineInv { s with command_queue := s.command_queue ++ [e0] } (E ++ [e0]) := by
  have hj := h.invoked_le
  have hk := h.sent_le
  refine ⟨?_, ?_, ?_, h.inv_count⟩
  · show s.invoked.map SinkCall.sinkId =
      ((E ++ [e0]).take s.invoked.length).map CommandQueueEntry.sinkId
    rw [List.take_append_of_le_length hj]
    exact h.inv_invoked
  · show s.command_queue ++ [e0] = (E ++ [e0]).drop s.invoked.length
    rw [List.drop_append_of_le_length hj, ← h.inv_queue]
  · show s.sent = ((E ++ [e0]).take s.sent.length).map (fun e => e.command.op)
    rw [List.take_append_of_le_length hk]
    exact h.inv_sent

theorem engineInv_enqueue_complete {s : EngineState} {E : List CommandQueueEntry}
    (c : CommandPacketBuilder) (k : Nat) (h : EngineInv s E)
    (hops : OpsNonNone (E ++ [⟨c, false, k⟩])) :
    EngineInv (handle_enqueue_command_with_complete c k s) (E ++ [⟨c, false, k⟩]) :=
  engineInv_send_next_command (engineInv_append _ h) hops

theorem engineInv_enqueue_status {s : EngineState} {E : List CommandQueueEntry}
    (c : CommandPacketBuilder) (k : Nat) (h : EngineInv s E)
    (hops : OpsNonNone (E ++ [⟨c, true, k⟩])) :
    EngineInv (handle_enqueue_command_with_status c k s) (E ++ [⟨c, true, k⟩]) :=
  engineInv_send_next_command (engineInv_append _ h) hops

/-! Equation lemmas for the four control-flow paths of on_command_status
and on_command_complete. -/

theorem on_command_status_none_op {ev : CommandStatusView} {s : EngineState}
    (hop : ev.commandOpCode = OpCode.NONE) :
    on_command_status ev s =
      some (send_next_command
        { s with command_credits := ev.numHciCommandPackets % 2 ^ 8 }) := by
  simp [on_command_status, hop]

theorem on_command_status_fatal_empty {ev : CommandStatusView} {s : EngineState}
    (hop : ev.commandOpCode ≠ OpCode.NONE) (hq : s.command_queue = []) :
    on_command_status ev s = none := by
  simp [on_command_status, hop, hq]

theorem on_command_status_fatal_wrong_op {ev : CommandStatusView} {s : EngineState}
    {entry : CommandQueueEntry} {rest : List CommandQueueEntry}
    (hop : ev.commandOpCode ≠ OpCode.NONE) (hq : s.command_queue = entry :: rest)
    (hw : s.waiting_command ≠ ev.commandOpCode) :
    on_command_status ev s = none := by
  simp [on_command_status, hop, hq, hw]

theorem on_command_status_fatal_kind {ev : CommandStatusView} {s : EngineState}
    {entry : CommandQueueEntry} {rest : List CommandQueueEntry}
    (hop : ev.commandOpCode ≠ OpCode.NONE) (hq : s.command_queue = entry :: rest)
    (hw : s.waiting_command = ev.commandOpCode)
    (hf : entry.waiting_for_status = false) :
    on_command_status ev s = none := by
  simp [on_command_status, hop, hq, hw, hf]

theorem on_command_status_match {ev : CommandStatusView} {s : EngineState}
    {entry : CommandQueueEntry} {rest : List CommandQueueEntry}
    (hq : s.command_queue = entry :: rest)
    (hop : ev.commandOpCode ≠ OpCode.NONE)
    (hw : s.waiting_command = ev.commandOpCode)
    (hf : entry.waiting_for_status = true) :
    on_command_status ev s =
      some (send_next_command
        { s with
          command_credits := ev.numHciCommandPackets % 2 ^ 8
          invoked := s.invoked ++
            [⟨entry.sinkId, ev.commandOpCode, ev.numHciCommandPackets⟩]
          command_queue := rest
          waiting_command := OpCode.NONE
          hci_timeout_alarm := none }) := by
  simp [on_command_status, hop, hq, hw, hf]

theorem on_command_complete_none_op {ev : CommandCompleteView} {s : EngineState}
    (hop : ev.commandOpCode = OpCode.NONE) :
    on_command_complete ev s =
      some (send_next_command
        { s with command_credits := ev.numHciCommandPackets % 2 ^ 8 }) := by
  simp [on_command_complete, hop]

theorem on_command_complete_fatal_empty {ev : CommandCompleteView} {s : EngineState}
    (hop : ev.commandOpCode ≠ OpCode.NONE) (hq : s.command_queue = []) :
    on_command_complete ev s = none := by
  simp [on_command_complete, hop, hq]

theorem on_command_complete_fatal_wrong_op {ev : CommandCompleteView} {s : EngineState}
    {entry : CommandQueueEntry} {rest : List CommandQueueEntry}
    (hop : ev.commandOpCode ≠ OpCode.NONE) (hq : s.command_queue = entry :: rest)
    (hw : s.waiting_command ≠ ev.commandOpCode) :
    on_command_complete ev s = none := by
  simp [on_command_complete, hop, hq, hw]

theorem on_command_complete_fatal_kind {ev : CommandCompleteView} {s : EngineState}
    {entry : CommandQueueEntry} {rest : List CommandQueueEntry}
    (hop : ev.commandOpCode ≠ OpCode.NONE) (hq : s.command_queue = entry :: rest)
    (hw : s.waiting_command = ev.commandOpCode)
    (hf : entry.waiting_for_status = true) :
    on_command_complete ev s = none := by
  simp [on_command_complete, hop, hq, hw, hf]

theorem on_command_complete_match {ev : CommandCompleteView} {s : EngineState}
    {entry : CommandQueueEntry} {rest : List CommandQueueEntry}
    (hq : s.command_queue = entry :: rest)
    (hop : ev.commandOpCode ≠ OpCode.NONE)
    (hw : s.waiting_command = ev.commandOpCode)
    (hf : entry.waiting_for_status = false) :
    on_command_complete ev s =
      some (send_next_command
        { s with
          command_credits := ev.numHciCommandPackets % 2 ^ 8
          invoked := s.invoked ++
            [⟨entry.sinkId, ev.commandOpCode, ev.numHciCommandPackets⟩]
          command_queue := rest
          waiting_command := OpCode.NONE
          hci_timeout_alarm := none }) := by
  simp [on_command_complete, hop, hq, hw, hf]

/-! Preservation of the invariant by each engine task. -/

theorem engineInv_pop {s : EngineState} {E : List CommandQueueEntry}
    {entry : CommandQueueEntry} {rest : List CommandQueueEntry}
    (h : EngineInv s E) (hq : s.command_queue = entry :: rest)
    (hwne : s.waiting_command ≠ OpCode.NONE) (c vOp vNum : Nat) :
    EngineInv
      { s with
        command_credits := c
        invoked := s.invoked ++ [⟨entry.sinkId, vOp, vNum⟩]
        command_queue := rest
        waiting_command := OpCode.NONE
        hci_timeout_alarm := none } E := by
  have hcount : s.sent.length = s.invoked.length + 1 := by
    have hcc := h.inv_count
    rw [if_neg hwne] at hcc
    exact hcc
  have hdropq : E.drop s.invoked.length = entry :: rest := by
    rw [← h.inv_queue]; exact hq
  have hget : E[s.invoked.length]? = some entry := by
    have h0 : (E.drop s.invoked.length)[0]? = some entry := by rw [hdropq]; simp
    rw [List.getElem?_drop] at h0
    simpa using h0
  have hrest : rest = E.drop (s.invoked.length + 1) := by
    have hdd := List.drop_drop 1 s.invoked.length E
    rw [← hdd, hdropq]
    rfl
  refine ⟨?_, ?_, h.inv_sent, ?_⟩
  · show (s.invoked ++ [(⟨entry.sinkId, vOp, vNum⟩ : SinkCall)]).map SinkCall.sinkId =
      (E.take (s.invoked ++ [(⟨entry.sinkId, vOp, vNum⟩ : SinkCall)]).length).map
        CommandQueueEntry.sinkId
    have hlen1 :
        (s.invoked ++ [(⟨entry.sinkId, vOp, vNum⟩ : SinkCall)]).length =
          s.invoked.length + 1 := by simp
    rw [hlen1, List.take_succ, hget]
    simp [h.inv_invoked]
  · show rest =
      E.drop (s.invoked ++ [(⟨entry.sinkId, vOp, vNum⟩ : SinkCall)]).length
    simpa using hrest
  · show s.sent.length =
      if OpCode.NONE = OpCode.NONE then
        (s.invoked ++ [(⟨entry.sinkId, vOp, vNum⟩ : SinkCall)]).length
      else (s.invoked ++ [(⟨entry.sinkId, vOp, vNum⟩ : SinkCall)]).length + 1
    simp [hcount]

theorem engineInv_on_command_status {ev : CommandStatusView} {s s1 : EngineState}
    {E : List CommandQueueEntry} (h : EngineInv s E) (hops : OpsNonNone E)
    (hstep : on_command_status ev s = some s1) : EngineInv s1 E := by
  by_cases hop : ev.commandOpCode = OpCode.NONE
  · rw [on_command_status_none_op hop] at hstep
    have hs1 := Option.some.inj hstep
    subst hs1
    exact engineInv_send_next_command
      ⟨h.inv_invoked, h.inv_queue, h.inv_sent, h.inv_count⟩ hops
  · cases hq : s.command_queue with
    | nil =>
      rw [on_command_status_fatal_empty hop hq] at hstep
      exact absurd hstep (by simp)
    | cons entry rest =>
      by_cases hw : s.waiting_command = ev.commandOpCode
      · cases hf : entry.waiting_for_status with
        | false =>
          rw [on_command_status_fatal_kind hop hq hw hf] at hstep
          exact absurd hstep (by simp)
        | true =>
          rw [on_command_status_match hq hop hw hf] at hstep
          have hs1 := Option.some.inj hstep
          subst hs1
          have hwne : s.waiting_command ≠ OpCode.NONE := by rw [hw]; exact hop
          exact engineInv_send_next_command (engineInv_pop h hq hwne _ _ _) hops
      · rw [on_command_status_fatal_wrong_op hop hq hw] at hstep
        exact absurd hstep (by simp)

theorem engineInv_on_command_complete {ev : CommandCompleteView} {s s1 : EngineState}
    {E : List CommandQueueEntry} (h : EngineInv s E) (hops : OpsNonNone E)
    (hstep : on_command_complete ev s = some s1) : EngineInv s1 E := by
  by_cases hop : ev.commandOpCode = OpCode.NONE
  · rw [on_command_complete_none_op hop] at hstep
    have hs1 := Option.some.inj hstep
    subst hs1
    exact engineInv_send_next_command
      ⟨h.inv_invoked, h.inv_queue, h.inv_sent, h.inv_count⟩ hops
  · cases hq : s.command_queue with
    | nil =>
      rw [on_command_complete_fatal_empty hop hq] at hstep
      exact absurd hstep (by simp)
    | cons entry rest =>
      by_cases hw : s.waiting_command = ev.commandOpCode
      · cases hf : entry.waiting_for_status with
        | true =>
          rw [on_command_complete_fatal_kind hop hq hw hf] at hstep
          exact absurd hstep (by simp)
        | false =>
          rw [on_command_complete_match hq hop hw hf] at hstep
          have hs1 := Option.some.inj hstep
          subst hs1
          have hwne : s.waiting_command ≠ OpCode.NONE := by rw [hw]; exact hop
          exact engineInv_send_next_command (engineInv_pop h hq hwne _ _ _) hops
      · rw [on_command_complete_fatal_wrong_op hop hq hw] at hstep
        exact absurd hstep (by simp)

theorem engineInv_run (acts : List EngineAction) {s s1 : EngineState}
    {E : List CommandQueueEntry}
    (h : EngineInv s E) (hE : OpsNonNone E) (hA : OpsNonNone (enqueuedOf acts))
    (hrun : engineRun s acts = some s1) :
    EngineInv s1 (E ++ enqueuedOf acts) := by
  induction acts generalizing s E with
  | nil =>
    simp [engineRun] at hrun
    subst hrun
    simpa [enqueuedOf] using h
  | cons a rest ih =>
    cases a with
    | enqueueComplete c k =>
      simp only [engineRun, engineStep] at hrun
      have hA0 : (⟨c, false, k⟩ : CommandQueueEntry).command.op ≠ OpCode.NONE :=
        hA _ (by simp [enqueuedOf])
      have hE' : OpsNonNone (E ++ [⟨c, false, k⟩]) := by
        intro e he
        rcases List.mem_append.mp he with h1 | h1
        · exact hE e h1
        · simp at h1; subst h1; exact hA0
      have hA' : OpsNonNone (enqueuedOf rest) := by
        intro e he
        exact hA e (by simp [enqueuedOf]; exact Or.inr he)
      have hmain := ih (engineInv_enqueue_complete c k h hE') hE' hA' hrun
      simpa [enqueuedOf, List.append_assoc] using hmain
    | enqueueStatus c k =>
      simp only [engineRun, engineStep] at hrun
      have hA0 : (⟨c, true, k⟩ : CommandQueueEntry).command.op ≠ OpCode.NONE :=
        hA _ (by simp [enqueuedOf])
      have hE' : OpsNonNone (E ++ [⟨c, true, k⟩]) := by
        intro e he
        rcases List.mem_append.mp he with h1 | h1
        · exact hE e h1
        · simp at h1; subst h1; exact hA0
      have hA' : OpsNonNone (enqueuedOf rest) := by
        intro e he
        exact hA e (by simp [enqueuedOf]; exact Or.inr he)
      have hmain := ih (engineInv_enqueue_status c k h hE') hE' hA' hrun
      simpa [enqueuedOf, List.append_assoc] using hmain
    | statusEvent ev =>
      simp only [engineRun, engineStep] at hrun
      split at hrun
      · simp at hrun
      · rename_i s2 hsc
        have h2 := engineInv_on_command_status h hE hsc
        have hmain := ih h2 hE (by simpa [enqueuedOf] using hA) hrun
        simpa [enqueuedOf] using hmain
    | completeEvent ev =>
      simp only [engineRun, engineStep] at hrun
      split at hrun
      · simp at hrun
      · rename_i s2 hsc
        have h2 := engineInv_on_command_complete h hE hsc
        have hmain := ih h2 hE (by simpa [enqueuedOf] using hA) hrun
        simpa [enqueuedOf] using hmain

theorem engineInv_init : EngineInv initState [] := by
  refine ⟨rfl, rfl, rfl, ?_⟩
  simp [initState]

theorem send_next_command_credits_of_outstanding {s : EngineState}
    (hw : s.waiting_command = OpCode.NONE)
    (hwne : (send_next_command s).waiting_command ≠ OpCode.NONE) :
    (send_next_command s).command_credits = 0 := by
  rcases send_next_command_cases s with heq | ⟨entry, rest, hc, hw2, hq, heq⟩
  · rw [heq] at hwne; exact absurd hw hwne
  · rw [heq]

/-! Claim theorems. -/

/-- Claim C1, counterexample: starting from the initial state, enqueue a
status-expecting command with opcode 3 (it is sent, so it is in flight),
then deliver a command-status event with opcode NONE and credit count 1.
The resulting state has outstanding opcode 3 (not NONE) while the credit
counter is 1, not 0 — the claimed invariant `outstanding != NONE ⇒
credits = 0` is violated immediately after processing a credit-only grant
while a command is in flight. -/
theorem C1_counterexample :
    ((engineRun initState
        [EngineAction.enqueueStatus ⟨3⟩ 7,
         EngineAction.statusEvent ⟨1, OpCode.NONE⟩]).map
        (fun s => (s.waiting_command, s.command_credits)) =
      some (3, 1)) ∧
    (3 : OpCode) ≠ OpCode.NONE ∧ (1 : Nat) ≠ 0 := by
  exact ⟨by decide, by decide, by decide⟩

/-- Claim C1, amended: the invariant `outstanding != NONE ⇒ credits = 0`
is established by every send (a send clamps credits to 0) and re-
established by every matching response handler turn, but it is not
preserved by a command-status event with opcode NONE arriving while a
command is in flight: that handler turn sets credits to the reported
credit count (possibly nonzero) and leaves the outstanding opcode
unchanged. -/
theorem C1_outstanding_credits_invariant :
    (∀ s : EngineState,
      send_next_command s = s ∨ (send_next_command s).command_credits = 0) ∧
    (∀ (ev : CommandStatusView) (s s1 : EngineState),
      ev.commandOpCode ≠ OpCode.NONE → on_command_status ev s = some s1 →
      s1.waiting_command ≠ OpCode.NONE → s1.command_credits = 0) ∧
    (∀ (ev : CommandCompleteView) (s s1 : EngineState),
      ev.commandOpCode ≠ OpCode.NONE → on_command_complete ev s = some s1 →
      s1.waiting_command ≠ OpCode.NONE → s1.command_credits = 0) ∧
    (∀ (ev : CommandStatusView) (s : EngineState),
      ev.commandOpCode = OpCode.NONE →
      on_command_status ev s =
        some (send_next_command
          { s with command_credits := ev.numHciCommandPackets % 2 ^ 8 })) := by
  refine ⟨?_, ?_, ?_, fun ev s hop => on_command_status_none_op hop⟩
  · intro s
    rcases send_next_command_cases s with heq | ⟨entry, rest, hc, hw, hq, heq⟩
    · exact Or.inl heq
    · rw [heq]; exact Or.inr rfl
  · intro ev s s1 hop hstep hwne1
    cases hq : s.command_queue with
    | nil =>
      rw [on_command_status_fatal_empty hop hq] at hstep
      exact absurd hstep (by simp)
    | cons entry rest =>
      by_cases hw : s.waiting_command = ev.commandOpCode
      · cases hf : entry.waiting_for_status with
        | false =>
          rw [on_command_status_fatal_kind hop hq hw hf] at hstep
          exact absurd hstep (by simp)
        | true =>
          rw [on_command_status_match hq hop hw hf] at hstep
          have hs1 := Option.some.inj hstep
          subst hs1
          exact send_next_command_credits_of_outstanding rfl hwne1
      · rw [on_command_status_fatal_wrong_op hop hq hw] at hstep
        exact absurd hstep (by simp)
  · intro ev s s1 hop hstep hwne1
    cases hq : s.command_queue with
    | nil =>
      rw [on_command_complete_fatal_empty hop hq] at hstep
      exact absurd hstep (by simp)
    | cons entry rest =>
      by_cases hw : s.waiting_command = ev.commandOpCode
      · cases hf : entry.waiting_for_status with
        | true =>
          rw [on_command_complete_fatal_kind hop hq hw hf] at hstep
          exact absurd hstep (by simp)
        | false =>
          rw [on_command_complete_match hq hop hw hf] at hstep
          have hs1 := Option.some.inj hstep
          subst hs1
          exact send_next_command_credits_of_outstanding rfl hwne1
      · rw [on_command_complete_fatal_wrong_op hop hq hw] at hstep
        exact absurd hstep (by simp)

/-- Witness state for the amended C1: opcode 3 in flight with opcode 4
queued behind it. -/
def c1wState : EngineState :=
  { command_queue := [⟨⟨3⟩, true, 7⟩, ⟨⟨4⟩, false, 8⟩]
    waiting_command := 3
    command_credits := 0
    hci_timeout_alarm := some (3, kHciTimeoutMs)
    sent := [3]
    invoked := [] }

/-- Witness result for the amended C1: the matching status response pops
opcode 3 and immediately sends opcode 4, so a command is again
outstanding and the credits are again clamped to 0. -/
def c1wResult : EngineState :=
  { command_queue := [⟨⟨4⟩, false, 8⟩]
    waiting_command := 4
    command_credits := 0
    hci_timeout_alarm := some (4, kHciTimeoutMs)
    sent := [3, 4]
    invoked := [⟨7, 3, 1⟩] }

/-- Witness for C1_outstanding_credits_invariant at concrete inputs. -/
theorem C1_outstanding_credits_invariant_witness :
    (3 : OpCode) ≠ OpCode.NONE ∧
    on_command_status ⟨1, 3⟩ c1wState = some c1wResult ∧
    c1wResult.waiting_command ≠ OpCode.NONE ∧
    c1wResult.command_credits = 0 :=
  ⟨by decide, by decide, by decide,
    C1_outstanding_credits_invariant.2.1 ⟨1, 3⟩ c1wState c1wResult
      (by decide) (by decide) (by decide)⟩

/-- Claim C2: send_next_command hands a command to the HAL iff credits are
positive, no command is outstanding and the queue is non-empty; on a send
it records the serialized-and-reparsed opcode of the head as outstanding,
clamps credits to 0, arms the timeout alarm with duration kHciTimeoutMs,
and leaves the queue (head included) untouched. -/
theorem C2_send_next_command_contract :
    ∀ s : EngineState,
      ((send_next_command s).sent.length = s.sent.length + 1 ↔
        (0 < s.command_credits ∧ s.waiting_command = OpCode.NONE ∧
          s.command_queue ≠ [])) ∧
      (∀ entry rest, 0 < s.command_credits → s.waiting_command = OpCode.NONE →
        s.command_queue = entry :: rest →
        send_next_command s =
          { s with
            sent := s.sent ++ [entry.command.op]
            waiting_command := entry.command.op
            command_credits := 0
            hci_timeout_alarm := some (entry.command.op, kHciTimeoutMs) }) := by
  intro s
  constructor
  · constructor
    · intro hlen
      by_cases hc : s.command_credits = 0
      · rw [send_next_command_of_no_credits hc] at hlen; omega
      by_cases hw : s.waiting_command = OpCode.NONE
      · cases hq : s.command_queue with
        | nil => rw [send_next_command_of_empty hq] at hlen; omega
        | cons entry rest => exact ⟨Nat.pos_of_ne_zero hc, hw, by simp⟩
      · rw [send_next_command_of_waiting hw] at hlen; omega
    · rintro ⟨hc, hw, hq⟩
      cases hql : s.command_queue with
      | nil => exact absurd hql hq
      | cons entry rest =>
        rw [send_next_command_sends (Nat.pos_iff_ne_zero.mp hc) hw hql]
        simp
  · intro entry rest hc hw hq
    exact send_next_command_sends (Nat.pos_iff_ne_zero.mp hc) hw hq

/-- Witness state for C2: idle engine with one credit and one queued
command of opcode 3. -/
def c2wState : EngineState :=
  { command_queue := [⟨⟨3⟩, true, 7⟩]
    waiting_command := OpCode.NONE
    command_credits := 1
    hci_timeout_alarm := none
    sent := []
    invoked := [] }

/-- Witness for C2_send_next_command_contract at concrete inputs. -/
theorem C2_send_next_command_contract_witness :
    0 < c2wState.command_credits ∧
    c2wState.waiting_command = OpCode.NONE ∧
    c2wState.command_queue = ⟨⟨3⟩, true, 7⟩ :: [] ∧
    send_next_command c2wState =
      { c2wState with
        sent := c2wState.sent ++ [3]
        waiting_command := 3
        command_credits := 0
        hci_timeout_alarm := some (3, kHciTimeoutMs) } :=
  ⟨by decide, by decide, by decide,
    (C2_send_next_command_contract c2wState).2 ⟨⟨3⟩, true, 7⟩ []
      (by decide) (by decide) (by decide)⟩

/-- Claim C3: a command-status (resp. command-complete) event whose opcode
matches the outstanding opcode and the expectation of the head makes the
engine invoke the status (resp. completion) sink of the head exactly once with the
parsed view, pop the head, clear the outstanding opcode, cancel the
timeout alarm, and re-enter send scheduling on the resulting state. -/
theorem C3_matching_response_dispatch :
    (∀ (ev : CommandStatusView) (s : EngineState) entry rest,
      s.command_queue = entry :: rest → ev.commandOpCode ≠ OpCode.NONE →
      s.waiting_command = ev.commandOpCode → entry.waiting_for_status = true →
      on_command_status ev s =
        some (send_next_command
          { s with
            command_credits := ev.numHciCommandPackets % 2 ^ 8
            invoked := s.invoked ++
              [⟨entry.sinkId, ev.commandOpCode, ev.numHciCommandPackets⟩]
            command_queue := rest
            waiting_command := OpCode.NONE
            hci_timeout_alarm := none })) ∧
    (∀ (ev : CommandCompleteView) (s : EngineState) entry rest,
      s.command_queue = entry :: rest → ev.commandOpCode ≠ OpCode.NONE →
      s.waiting_command = ev.commandOpCode → entry.waiting_for_status = false →
      on_command_complete ev s =
        some (send_next_command
          { s with
            command_credits := ev.numHciCommandPackets % 2 ^ 8
            invoked := s.invoked ++
              [⟨entry.sinkId, ev.commandOpCode, ev.numHciCommandPackets⟩]
            command_queue := rest
            waiting_command := OpCode.NONE
            hci_timeout_alarm := none })) :=
  ⟨fun ev s entry rest hq hop hw hf => on_command_status_match hq hop hw hf,
   fun ev s entry rest hq hop hw hf => on_command_complete_match hq hop hw hf⟩

/-- Witness state for C3: opcode 3 in flight, expecting a status. -/
def c3wState : EngineState :=
  { command_queue := [⟨⟨3⟩, true, 7⟩]
    waiting_command := 3
    command_credits := 0
    hci_timeout_alarm := some (3, kHciTimeoutMs)
    sent := [3]
    invoked := [] }

/-- Witness for C3_matching_response_dispatch at concrete inputs. -/
theorem C3_matching_response_dispatch_witness :
    c3wState.command_queue = ⟨⟨3⟩, true, 7⟩ :: [] ∧
    (3 : OpCode) ≠ OpCode.NONE ∧
    c3wState.waiting_command = (3 : OpCode) ∧
    on_command_status ⟨1, 3⟩ c3wState =
      some (send_next_command
        { c3wState with
          command_credits := 1
          invoked := [⟨7, 3, 1⟩]
          command_queue := []
          waiting_command := OpCode.NONE
          hci_timeout_alarm := none }) :=
  ⟨by decide, by decide, by decide,
    (C3_matching_response_dispatch.1 ⟨1, 3⟩ c3wState ⟨⟨3⟩, true, 7⟩ []
      (by decide) (by decide) (by decide) (by decide)).trans (by decide)⟩

/-- Claim C4: a command-status event with opcode NONE arriving while a
command is outstanding only rewrites the credit counter to the reported
count; the queue (in-flight head included), the outstanding opcode, the
invocation trace and the HAL send trace are all unchanged. -/
theorem C4_credit_only_grant_frame :
    ∀ (ev : CommandStatusView) (s s1 : EngineState),
      ev.commandOpCode = OpCode.NONE → s.waiting_command ≠ OpCode.NONE →
      on_command_status ev s = some s1 →
      s1.command_credits = ev.numHciCommandPackets % 2 ^ 8 ∧
      s1.command_queue = s.command_queue ∧
      s1.waiting_command = s.waiting_command ∧
      s1.invoked = s.invoked ∧
      s1.sent = s.sent := by
  intro ev s s1 hop hw hstep
  rw [on_command_status_none_op hop] at hstep
  have hs1 := Option.some.inj hstep
  rw [send_next_command_of_waiting
    (s := { s with command_credits := ev.numHciCommandPackets % 2 ^ 8 }) hw] at hs1
  subst hs1
  exact ⟨rfl, rfl, rfl, rfl, rfl⟩

/-- Witness for C4_credit_only_grant_frame at concrete inputs (opcode 3
in flight, credit-only grant of one credit). -/
theorem C4_credit_only_grant_frame_witness :
    (OpCode.NONE : OpCode) = OpCode.NONE ∧
    c3wState.waiting_command ≠ OpCode.NONE ∧
    on_command_status ⟨1, OpCode.NONE⟩ c3wState =
      some { c3wState with command_credits := 1 } ∧
    ({ c3wState with command_credits := 1 } : EngineState).command_credits =
        1 % 2 ^ 8 ∧
    ({ c3wState with command_credits := 1 } : EngineState).command_queue =
        c3wState.command_queue ∧
    ({ c3wState with command_credits := 1 } : EngineState).waiting_command =
        c3wState.waiting_command ∧
    ({ c3wState with command_credits := 1 } : EngineState).invoked =
        c3wState.invoked ∧
    ({ c3wState with command_credits := 1 } : EngineState).sent =
        c3wState.sent :=
  ⟨rfl, by decide, by decide,
    (C4_credit_only_grant_frame ⟨1, OpCode.NONE⟩ c3wState
      { c3wState with command_credits := 1 } rfl (by decide) (by decide))⟩

/-- Claim C5: over any trace of enqueues and responses run from the
initial state (with the real-world proviso that no enqueued command
carries the NONE sentinel opcode), the k-th opcode handed to the HAL is
the opcode of the k-th enqueued entry, and the k-th sink invoked is the
sink of the k-th enqueued entry: transmission follows enqueue order and
sink dispatch follows transmission order. -/
theorem C5_fifo_dispatch (acts : List EngineAction) (s1 : EngineState)
    (hops : OpsNonNone (enqueuedOf acts))
    (hrun : engineRun initState acts = some s1) :
    s1.sent =
      ((enqueuedOf acts).take s1.sent.length).map (fun e => e.command.op) ∧
    s1.invoked.map SinkCall.sinkId =
      ((enqueuedOf acts).take s1.invoked.length).map CommandQueueEntry.sinkId := by
  have hmain := engineInv_run acts engineInv_init
    (fun e he => absurd he (List.not_mem_nil e)) hops hrun
  simp only [List.nil_append] at hmain
  exact ⟨hmain.inv_sent, hmain.inv_invoked⟩

/-- Witness trace for C5: enqueue opcode 3 expecting status, then deliver
the matching status. -/
def c5wActs : List EngineAction :=
  [EngineAction.enqueueStatus ⟨3⟩ 7, EngineAction.statusEvent ⟨1, 3⟩]

/-- Witness final state for C5. -/
def c5wFinal : EngineState :=
  { command_queue := []
    waiting_command := OpCode.NONE
    command_credits := 1
    hci_timeout_alarm := none
    sent := [3]
    invoked := [⟨7, 3, 1⟩] }

/-- Witness for C5_fifo_dispatch at a concrete trace. -/
theorem C5_fifo_dispatch_witness :
    OpsNonNone (enqueuedOf c5wActs) ∧
    engineRun initState c5wActs = some c5wFinal ∧
    (c5wFinal.sent =
        ((enqueuedOf c5wActs).take c5wFinal.sent.length).map
          (fun e => e.command.op) ∧
      c5wFinal.invoked.map SinkCall.sinkId =
        ((enqueuedOf c5wActs).take c5wFinal.invoked.length).map
          CommandQueueEntry.sinkId) :=
  ⟨by unfold OpsNonNone; decide, by decide,
    C5_fifo_dispatch c5wActs c5wFinal (by unfold OpsNonNone; decide) (by decide)⟩

/-- Claim C6: a response with a non-NONE opcode is fatal exactly when the
queue is empty, or the opcode differs from the outstanding one, or the
response kind contradicts the expects_status flag of the head (status event for
a completion-expecting head, or completion event for a status-expecting
head). -/
theorem C6_unexpected_response_fatal :
    ∀ (evs : CommandStatusView) (evc : CommandCompleteView) (s : EngineState),
      (evs.commandOpCode ≠ OpCode.NONE →
        (on_command_status evs s = none ↔
          (s.command_queue = [] ∨ s.waiting_command ≠ evs.commandOpCode ∨
            ∃ entry, s.command_queue.head? = some entry ∧
              entry.waiting_for_status = false))) ∧
      (evc.commandOpCode ≠ OpCode.NONE →
        (on_command_complete evc s = none ↔
          (s.command_queue = [] ∨ s.waiting_command ≠ evc.commandOpCode ∨
            ∃ entry, s.command_queue.head? = some entry ∧
              entry.waiting_for_status = true))) := by
  intro evs evc s
  constructor
  · intro hop
    constructor
    · intro hnone
      cases hq : s.command_queue with
      | nil => exact Or.inl rfl
      | cons entry rest =>
        by_cases hw : s.waiting_command = evs.commandOpCode
        · cases hf : entry.waiting_for_status with
          | true =>
            rw [on_command_status_match hq hop hw hf] at hnone
            exact absurd hnone (by simp)
          | false => exact Or.inr (Or.inr ⟨entry, rfl, hf⟩)
        · exact Or.inr (Or.inl hw)
    · intro hdisj
      rcases hdisj with hq | hw | ⟨entry, hhead, hf⟩
      · exact on_command_status_fatal_empty hop hq
      · cases hql : s.command_queue with
        | nil => exact on_command_status_fatal_empty hop hql
        | cons e2 rest => exact on_command_status_fatal_wrong_op hop hql hw
      · cases hql : s.command_queue with
        | nil => rw [hql] at hhead; exact absurd hhead (by simp)
        | cons e2 rest =>
          rw [hql] at hhead
          simp at hhead
          subst hhead
          by_cases hw : s.waiting_command = evs.commandOpCode
          · exact on_command_status_fatal_kind hop hql hw hf
          · exact on_command_status_fatal_wrong_op hop hql hw
  · intro hop
    constructor
    · intro hnone
      cases hq : s.command_queue with
      | nil => exact Or.inl rfl
      | cons entry rest =>
        by_cases hw : s.waiting_command = evc.commandOpCode
        · cases hf : entry.waiting_for_status with
          | false =>
            rw [on_command_complete_match hq hop hw hf] at hnone
            exact absurd hnone (by simp)
          | true => exact Or.inr (Or.inr ⟨entry, rfl, hf⟩)
        · exact Or.inr (Or.inl hw)
    · intro hdisj
      rcases hdisj with hq | hw | ⟨entry, hhead, hf⟩
      · exact on_command_complete_fatal_empty hop hq
      · cases hql : s.command_queue with
        | nil => exact on_command_complete_fatal_empty hop hql
        | cons e2 rest => exact on_command_complete_fatal_wrong_op hop hql hw
      · cases hql : s.command_queue with
        | nil => rw [hql] at hhead; exact absurd hhead (by simp)
        | cons e2 rest =>
          rw [hql] at hhead
          simp at hhead
          subst hhead
          by_cases hw : s.waiting_command = evc.commandOpCode
          · exact on_command_complete_fatal_kind hop hql hw hf
          · exact on_command_complete_fatal_wrong_op hop hql hw

/-- Witness for C6_unexpected_response_fatal: a status response with
opcode 5 while the queue is empty (initial state) is fatal. -/
theorem C6_unexpected_response_fatal_witness :
    (5 : OpCode) ≠ OpCode.NONE ∧
    on_command_status ⟨1, 5⟩ initState = none :=
  ⟨by decide,
    ((C6_unexpected_response_fatal ⟨1, 5⟩ ⟨1, 5⟩ initState).1
      (by decide)).mpr (Or.inl rfl)⟩

/-- Claim C7: the timeout handler unconditionally aborts with a fatal log
naming the stalled opcode (its result type has no non-fatal constructor,
so no recovery or retry exists), and the alarm armed by a send is bound to
exactly the opcode of the command that was sent. -/
theorem C7_timeout_abort :
    (∀ op : OpCode, on_hci_timeout op = TimeoutResult.fatal op) ∧
    (∀ (s : EngineState) (entry : CommandQueueEntry)
      (rest : List CommandQueueEntry),
      0 < s.command_credits → s.waiting_command = OpCode.NONE →
      s.command_queue = entry :: rest →
      fire_alarm (send_next_command s) =
        some (TimeoutResult.fatal entry.command.op)) := by
  refine ⟨fun op => rfl, ?_⟩
  intro s entry rest hc hw hq
  rw [send_next_command_sends (Nat.pos_iff_ne_zero.mp hc) hw hq]
  rfl

/-- Witness for C7_timeout_abort: sending opcode 3 arms an alarm whose
firing is the fatal abort naming opcode 3. -/
theorem C7_timeout_abort_witness :
    0 < c2wState.command_credits ∧
    c2wState.waiting_command = OpCode.NONE ∧
    c2wState.command_queue = ⟨⟨3⟩, true, 7⟩ :: [] ∧
    fire_alarm (send_next_command c2wState) = some (TimeoutResult.fatal 3) :=
  ⟨by decide, by decide, by decide,
    C7_timeout_abort.2 c2wState ⟨⟨3⟩, true, 7⟩ [] (by decide) (by decide)
      (by decide)⟩

/-- Claim C8: dispatch of an inbound event by event code.  Start registers
the LE meta dispatcher for LE_META_EVENT; when the table routes an event
to it, the event is re-parsed as an LE meta view and dispatched by
subevent code, fatally if no subevent handler is registered; an event
whose code maps to an external handler invokes it; an event whose code has
no registration is dropped with only a debug log (a non-fatal outcome). -/
theorem C8_event_dispatch :
    mapFind startEventHandlers EventCode.LE_META_EVENT =
      some EvHandler.onLeMetaEvent ∧
    ∀ (tbl : List (EventCode × EvHandler)) (subTbl : List (SubeventCode × Nat))
      (ev : EventPacketView),
      (mapFind tbl ev.eventCode = some EvHandler.onLeMetaEvent →
        ((on_hci_event tbl subTbl ev =
            DispatchOutcome.fatalLeUnhandled ev.subeventCode ↔
          mapFind subTbl ev.subeventCode = none) ∧
        (∀ hid, mapFind subTbl ev.subeventCode = some hid →
          on_hci_event tbl subTbl ev =
            DispatchOutcome.invokedLeExt hid (LeMetaEventView.Create ev)))) ∧
      (∀ i, mapFind tbl ev.eventCode = some (EvHandler.ext i) →
        on_hci_event tbl subTbl ev = DispatchOutcome.invokedExt i ev) ∧
      (on_hci_event tbl subTbl ev = DispatchOutcome.droppedDebug ev.eventCode ↔
        mapFind tbl ev.eventCode = none) := by
  refine ⟨by decide, ?_⟩
  intro tbl subTbl ev
  refine ⟨?_, ?_, ?_⟩
  · intro hle
    have hev : on_hci_event tbl subTbl ev = on_le_meta_event subTbl ev := by
      simp [on_hci_event, hle, invokeHandler]
    constructor
    · rw [hev]
      cases hsub : mapFind subTbl ev.subeventCode with
      | none => simp [on_le_meta_event, LeMetaEventView.Create, hsub]
      | some hid => simp [on_le_meta_event, LeMetaEventView.Create, hsub]
    · intro hid hsub
      rw [hev]
      simp [on_le_meta_event, LeMetaEventView.Create, hsub]
  · intro i hext
    simp [on_hci_event, hext, invokeHandler]
  · cases htbl : mapFind tbl ev.eventCode with
    | none => simp [on_hci_event, htbl]
    | some h =>
      cases h with
      | onCommandComplete => simp [on_hci_event, htbl, invokeHandler]
      | onCommandStatus => simp [on_hci_event, htbl, invokeHandler]
      | dropHandler => simp [on_hci_event, htbl, invokeHandler]
      | ext i => simp [on_hci_event, htbl, invokeHandler]
      | onLeMetaEvent =>
        cases hsub : mapFind subTbl ev.subeventCode with
        | none =>
          simp [on_hci_event, htbl, invokeHandler, on_le_meta_event,
            LeMetaEventView.Create, hsub]
        | some hid =>
          simp [on_hci_event, htbl, invokeHandler, on_le_meta_event,
            LeMetaEventView.Create, hsub]

/-- Witness for C8_event_dispatch: with the Start table and a single LE
subevent registration (subevent 5, handler 9), an LE meta event with
subevent 5 is routed through the LE dispatcher to handler 9. -/
theorem C8_event_dispatch_witness :
    mapFind startEventHandlers EventCode.LE_META_EVENT =
      some EvHandler.onLeMetaEvent ∧
    mapFind [(5, 9)] (5 : SubeventCode) = some 9 ∧
    on_hci_event startEventHandlers [(5, 9)] ⟨EventCode.LE_META_EVENT, 5⟩ =
      DispatchOutcome.invokedLeExt 9
        (LeMetaEventView.Create ⟨EventCode.LE_META_EVENT, 5⟩) :=
  ⟨by decide, by decide,
    ((C8_event_dispatch.2 startEventHandlers [(5, 9)]
        ⟨EventCode.LE_META_EVENT, 5⟩).1 (by decide)).2 9 (by decide)⟩

/-- Claim C9: registration is exclusive and unregistration is strict, for
both tables: registering an already-registered (sub)event code is fatal,
and unregistering an absent (sub)event code is a fatal crash, never a
no-op. -/
theorem C9_registration_exclusive_strict :
    ∀ (tbl : List (EventCode × EvHandler)) (subTbl : List (SubeventCode × Nat))
      (code : EventCode) (sub : SubeventCode) (h : EvHandler) (lh : Nat),
      (handle_register_event_handler tbl code h = none ↔
        mapFind tbl code ≠ none) ∧
      (handle_unregister_event_handler tbl code = none ↔
        mapFind tbl code = none) ∧
      (handle_register_le_event_handler subTbl sub lh = none ↔
        mapFind subTbl sub ≠ none) ∧
      (handle_unregister_le_event_handler subTbl sub = none ↔
        mapFind subTbl sub = none) := by
  intro tbl subTbl code sub h lh
  refine ⟨?_, ?_, ?_, ?_⟩
  · cases hf : mapFind tbl code with
    | none => simp [handle_register_event_handler, hf]
    | some x => simp [handle_register_event_handler, hf]
  · cases hf : mapFind tbl code with
    | none => simp [handle_unregister_event_handler, hf]
    | some x => simp [handle_unregister_event_handler, hf]
  · cases hf : mapFind subTbl sub with
    | none => simp [handle_register_le_event_handler, hf]
    | some x => simp [handle_register_le_event_handler, hf]
  · cases hf : mapFind subTbl sub with
    | none => simp [handle_unregister_le_event_handler, hf]
    | some x => simp [handle_unregister_le_event_handler, hf]

/-- Claim C10: the facade getters GetAclConnectionInterface and
GetLeAclConnectionInterface never read their on_disconnect argument: the
resulting table is the same for any two values (even of different use
sites), and their whole state effect is registering the supplied
event_handler for each code of the event table of the facade. -/
theorem C10_on_disconnect_discarded :
    ∀ (D : Type) (tbl : List (EventCode × EvHandler))
      (subTbl : List (SubeventCode × Nat))
      (events : List EventCode) (subevents : List SubeventCode)
      (handler : EvHandler) (leHandler : Nat) (d1 d2 : D),
      GetAclConnectionInterface tbl events handler d1 =
        GetAclConnectionInterface tbl events handler d2 ∧
      GetAclConnectionInterface tbl events handler d1 =
        registerEventsWith tbl events handler ∧
      GetLeAclConnectionInterface subTbl subevents leHandler d1 =
        GetLeAclConnectionInterface subTbl subevents leHandler d2 ∧
      GetLeAclConnectionInterface subTbl subevents leHandler d1 =
        registerLeEventsWith subTbl subevents leHandler := by
  intro D tbl subTbl events subevents handler leHandler d1 d2
  exact ⟨rfl, rfl, rfl, rfl⟩

end Hci
